import Mathlib

/-!
Verification of the vulkanwork renderer's resource lifecycle and frame
scheduling logic, shallowly embedded from `src/graphics/renderer.cpp`,
`src/graphics/renderer.h`, `src/graphics/light.{h,cpp}`,
`src/graphics/material.h`, `src/graphics/mesh.h`, `src/texture.h` and
`src/gltfLoader.cpp`.

GPU handles (VkBuffer, VkImage, VkDescriptorSet, ...) are external device
objects; the embedding models the CPU-side tables and control flow, and
models "a GPU resource was destroyed and recreated" by generation counters
where a claim speaks about recreation.
-/

namespace VulkanWork

-- =============================================================================
-- Data model (texture.h, material.h, mesh.h, scene.h)
-- =============================================================================

/-- CPU-side fields of `struct Texture` (texture.h): dimensions, RGBA8 pixel
buffer, color-space flag, mip count.  GPU handles are omitted. -/
structure Texture where
  width : Nat
  height : Nat
  pixels : List Nat
  isSrgb : Bool
  mipLevels : Nat
  deriving Repr, DecidableEq

/-- Index fields of `struct Material` (material.h): the four texture slots,
signed, `-1` = "use fallback".  The scalar PBR factors and GPU handles are
carried by the C++ struct but never read or written by the table logic
modelled here, so they are omitted from the embedding. -/
structure Material where
  baseColorTexture : Int
  metallicRoughnessTexture : Int
  normalTexture : Int
  emissiveTexture : Int
  deriving Repr, DecidableEq

instance : Inhabited Material := ⟨⟨-1, -1, -1, -1⟩⟩

/-- Index field of `struct Mesh` (mesh.h).  Vertex/index data and GPU handles
are never consulted by the index bookkeeping modelled here. -/
structure Mesh where
  materialIndex : Nat
  deriving Repr, DecidableEq

/-- The `struct Scene` triple produced by `load_gltf` (scene.h). -/
structure Scene where
  meshes : List Mesh
  materials : List Material
  textures : List Texture
  deriving Repr, DecidableEq

/-- The renderer's resource tables (`meshes_`, `materials_`, `textures_` in
renderer.h) plus a counter of `rebuild_material_descriptors()` calls, which
models "the GPU binding tables were rebuilt". -/
structure RendererTables where
  meshes : List Mesh
  materials : List Material
  textures : List Texture
  rebuilds : Nat
  deriving Repr, DecidableEq

-- Forward+ constants (renderer.h)
def TILE_SIZE : Nat := 16
def MAX_LIGHTS_PER_TILE : Nat := 256
def MAX_LIGHTS : Nat := 1024
def MAX_FRAMES_IN_FLIGHT : Nat := 2

-- =============================================================================
-- Renderer::import_gltf (renderer.cpp, lines 1662-1705)
-- =============================================================================

/-- One texture-slot rewrite from `import_gltf`:
`if (mat.slot >= 0) mat.slot += texOffset;`. -/
def offsetSlot (texOffset : Nat) (s : Int) : Int :=
  if 0 ≤ s then s + texOffset else s

/-- The four slot rewrites applied to one imported material. -/
def offsetMaterial (texOffset : Nat) (m : Material) : Material :=
  { baseColorTexture := offsetSlot texOffset m.baseColorTexture
    metallicRoughnessTexture := offsetSlot texOffset m.metallicRoughnessTexture
    normalTexture := offsetSlot texOffset m.normalTexture
    emissiveTexture := offsetSlot texOffset m.emissiveTexture }

/-- The rewrite `mesh.materialIndex += matOffset;` from `import_gltf`. -/
def offsetMesh (matOffset : Nat) (m : Mesh) : Mesh :=
  { materialIndex := m.materialIndex + matOffset }

/-- Table mutation of `Renderer::import_gltf` once `load_gltf` has succeeded:
offsets are taken from the current table sizes before anything is appended,
the incoming materials and meshes are rewritten, all three tables are
appended, and the material GPU bindings are rebuilt. -/
def import_gltf_tables (st : RendererTables) (scene : Scene) : RendererTables :=
  let texOffset := st.textures.length
  let matOffset := st.materials.length
  { meshes := st.meshes ++ scene.meshes.map (offsetMesh matOffset)
    materials := st.materials ++ scene.materials.map (offsetMaterial texOffset)
    textures := st.textures ++ scene.textures
    rebuilds := st.rebuilds + 1 }

/-- Entry point `Renderer::import_gltf`: `Scene scene = load_gltf(path);` runs before any
table is touched; if `load_gltf` throws, the exception propagates and the
member tables are exactly as before the call.  The external load is modelled
as an `Except` input; the returned pair is (tables after the call, outcome). -/
def import_gltf (st : RendererTables) (loadResult : Except String Scene) :
    RendererTables × Except String Unit :=
  match loadResult with
  | .error e => (st, .error e)
  | .ok scene => (import_gltf_tables st scene, .ok ())

-- =============================================================================
-- Renderer::delete_mesh (renderer.cpp, lines 1707-1816)
-- =============================================================================

/-- The `markTex` lambda from `delete_mesh`:
`if (idx >= 0 && idx < size) bitmap[idx] = true;` where the bound checked is
the bitmap's size (both bitmaps are sized `textures_.size()`). -/
def markTex (bm : List Bool) (idx : Int) : List Bool :=
  if 0 ≤ idx ∧ idx < (bm.length : Int) then bm.set idx.toNat true else bm

/-- Marks the four texture slots of one material into a bitmap. -/
def markMaterialTextures (bm : List Bool) (m : Material) : List Bool :=
  markTex (markTex (markTex (markTex bm m.baseColorTexture)
    m.metallicRoughnessTexture) m.normalTexture) m.emissiveTexture

/-- Step 3 of `delete_mesh`:
`std::vector<bool> matReferenced(materials_.size(), false);
for (const auto& m : meshes_) matReferenced[m.materialIndex] = true;` -/
def matReferencedBitmap (meshes : List Mesh) (numMats : Nat) : List Bool :=
  meshes.foldl (fun bm m => bm.set m.materialIndex true)
    (List.replicate numMats false)

/-- Loop of step 3 that gathers texture indices referenced by unreferenced
materials (`texReferencedByUnrefMat`), walking the material table with its
index counter. -/
def texCandidateLoop (matRef : List Bool) :
    List Material → Nat → List Bool → List Bool
  | [], _, bm => bm
  | m :: rest, i, bm =>
      texCandidateLoop matRef rest (i + 1)
        (if matRef.getD i false then bm else markMaterialTextures bm m)

/-- Step 5 of `delete_mesh`: the true texture-reference bitmap recomputed from
the surviving materials (whose slots still hold pre-fix-up values). -/
def texReferencedBitmap (materials : List Material) (numTex : Nat) : List Bool :=
  materials.foldl markMaterialTextures (List.replicate numTex false)

/-- The reverse-order erase loops of steps 4 and 6:
`for (int32_t i = size - 1; i >= 0; --i) if (!keep(i)) { erase(i);
removed.push_back(i); }`.  The counter is the first explicit argument; the
loop touches indices below it only. -/
def eraseUnrefLoop {α : Type} (keep : Nat → Bool) :
    Nat → List α → List Nat → List α × List Nat
  | 0, xs, removed => (xs, removed)
  | i + 1, xs, removed =>
      if keep i then eraseUnrefLoop keep i xs removed
      else eraseUnrefLoop keep i (xs.eraseIdx i) (removed ++ [i])

/-- The loop `uint32_t shift = 0; for (removed) if (removed <= idx) ++shift;` -/
def shiftFor (removed : List Nat) (idx : Nat) : Nat :=
  (removed.filter (fun r => r ≤ idx)).length

/-- Step 6 of `delete_mesh`: `m.materialIndex -= shift;`. -/
def fixMesh (removedMats : List Nat) (m : Mesh) : Mesh :=
  { materialIndex := m.materialIndex - shiftFor removedMats m.materialIndex }

/-- Step 7 of `delete_mesh`, one slot: negative slots are skipped, otherwise
the slot drops by the number of removed texture indices at or below it. -/
def fixTexSlot (removedTexs : List Nat) (idx : Int) : Int :=
  if idx < 0 then idx
  else idx - (shiftFor removedTexs idx.toNat : Int)

/-- Step 7 applied to all four slots of a surviving material. -/
def fixMaterial (removedTexs : List Nat) (m : Material) : Material :=
  { baseColorTexture := fixTexSlot removedTexs m.baseColorTexture
    metallicRoughnessTexture := fixTexSlot removedTexs m.metallicRoughnessTexture
    normalTexture := fixTexSlot removedTexs m.normalTexture
    emissiveTexture := fixTexSlot removedTexs m.emissiveTexture }

-- Named intermediate stages of delete_mesh, mirroring the code blocks.

/-- Mesh table after step 1 (`meshes_.erase(meshes_.begin() + meshIdx)`). -/
def survivingMeshes (st : RendererTables) (meshIdx : Nat) : List Mesh :=
  st.meshes.eraseIdx meshIdx

/-- Keep-predicate for the material erase loop: `matReferenced[i]`. -/
def matKeep (st : RendererTables) (meshIdx : Nat) : Nat → Bool :=
  fun i =>
    (matReferencedBitmap (survivingMeshes st meshIdx)
      st.materials.length).getD i false

/-- The `texReferencedByUnrefMat` bitmap of step 3. -/
def texCandidateBitmap (st : RendererTables) (meshIdx : Nat) : List Bool :=
  texCandidateLoop
    (matReferencedBitmap (survivingMeshes st meshIdx) st.materials.length)
    st.materials 0 (List.replicate st.textures.length false)

/-- Material table after the step-4 erase loop. -/
def compactedMaterials (st : RendererTables) (meshIdx : Nat) : List Material :=
  (eraseUnrefLoop (matKeep st meshIdx) st.materials.length st.materials []).1

/-- The `removedMatIndices` list collected by the step-4 erase loop (descending). -/
def removedMatIndices (st : RendererTables) (meshIdx : Nat) : List Nat :=
  (eraseUnrefLoop (matKeep st meshIdx) st.materials.length st.materials []).2

/-- Keep-predicate for the texture erase loop of step 6: erase exactly when
`texReferencedByUnrefMat[i] && !texReferenced[i]`. -/
def texKeep (st : RendererTables) (meshIdx : Nat) : Nat → Bool :=
  fun i =>
    !((texCandidateBitmap st meshIdx).getD i false &&
      !((texReferencedBitmap (compactedMaterials st meshIdx)
          st.textures.length).getD i false))

/-- Texture table after the step-6 erase loop. -/
def compactedTextures (st : RendererTables) (meshIdx : Nat) : List Texture :=
  (eraseUnrefLoop (texKeep st meshIdx) st.textures.length st.textures []).1

/-- The `removedTexIndices` list collected by the step-6 erase loop (descending). -/
def removedTexIndices (st : RendererTables) (meshIdx : Nat) : List Nat :=
  (eraseUnrefLoop (texKeep st meshIdx) st.textures.length st.textures []).2

/-- Entry point `Renderer::delete_mesh`: out-of-range index returns immediately;
otherwise erase the mesh, cascade-erase unreferenced materials, then textures
that only they referenced, fix up all surviving indices, and rebuild the
material GPU bindings. -/
def delete_mesh (st : RendererTables) (meshIdx : Nat) : RendererTables :=
  if st.meshes.length ≤ meshIdx then st
  else
    { meshes :=
        (survivingMeshes st meshIdx).map (fixMesh (removedMatIndices st meshIdx))
      materials :=
        (compactedMaterials st meshIdx).map
          (fixMaterial (removedTexIndices st meshIdx))
      textures := compactedTextures st meshIdx
      rebuilds := st.rebuilds + 1 }

-- =============================================================================
-- Well-formedness (the spec's index invariant)
-- =============================================================================

/-- A texture slot is the `-1` sentinel or a valid index. -/
def SlotOK (s : Int) (numTex : Nat) : Prop :=
  s = -1 ∨ (0 ≤ s ∧ s < (numTex : Int))

instance (s : Int) (n : Nat) : Decidable (SlotOK s n) := by
  unfold SlotOK; infer_instance

/-- Every mesh's material index is in range. -/
def MeshIndicesOK (meshes : List Mesh) (numMats : Nat) : Prop :=
  ∀ m ∈ meshes, m.materialIndex < numMats

instance (ms : List Mesh) (n : Nat) : Decidable (MeshIndicesOK ms n) := by
  unfold MeshIndicesOK; infer_instance

/-- Every material's four texture slots are `-1` or in range. -/
def MaterialSlotsOK (mats : List Material) (numTex : Nat) : Prop :=
  ∀ m ∈ mats, SlotOK m.baseColorTexture numTex ∧
    SlotOK m.metallicRoughnessTexture numTex ∧
    SlotOK m.normalTexture numTex ∧
    SlotOK m.emissiveTexture numTex

instance (ms : List Material) (n : Nat) : Decidable (MaterialSlotsOK ms n) := by
  unfold MaterialSlotsOK; infer_instance

/-- The spec's index invariant over the renderer tables. -/
def Inv (st : RendererTables) : Prop :=
  MeshIndicesOK st.meshes st.materials.length ∧
  MaterialSlotsOK st.materials st.textures.length

instance (st : RendererTables) : Decidable (Inv st) := by
  unfold Inv; infer_instance

/-- The same well-formedness for a scene produced by the loader. -/
def SceneOK (sc : Scene) : Prop :=
  MeshIndicesOK sc.meshes sc.materials.length ∧
  MaterialSlotsOK sc.materials sc.textures.length

instance (sc : Scene) : Decidable (SceneOK sc) := by
  unfold SceneOK; infer_instance

-- =============================================================================
-- Generic lemmas: the reverse-order erase loop compacts by a keep-predicate
-- =============================================================================

/-- Elements of `xs` whose position (counting from `s`) satisfies `keep`. -/
def filterIdxFrom {α : Type} (keep : Nat → Bool) : Nat → List α → List α
  | _, [] => []
  | s, x :: xs =>
      if keep s then x :: filterIdxFrom keep (s + 1) xs
      else filterIdxFrom keep (s + 1) xs

/-- Number of positions `j` with `s ≤ j < s + i` and `keep j`. -/
def countFrom (keep : Nat → Bool) : Nat → Nat → Nat
  | _, 0 => 0
  | s, i + 1 => (if keep s then 1 else 0) + countFrom keep (s + 1) i

/-- Positions `j < i` with `keep j = false`, in descending order. -/
def removedBelow (keep : Nat → Bool) : Nat → List Nat
  | 0 => []
  | i + 1 => if keep i then removedBelow keep i else i :: removedBelow keep i

theorem filterIdxFrom_append {α : Type} (k : Nat → Bool) (xs : List α) :
    ∀ (s : Nat) (ys : List α),
      filterIdxFrom k s (xs ++ ys) =
        filterIdxFrom k s xs ++ filterIdxFrom k (s + xs.length) ys := by
  induction xs with
  | nil => intro s ys; simp [filterIdxFrom]
  | cons x tl ih =>
      intro s ys
      have h1 : s + (tl.length + 1) = (s + 1) + tl.length := by omega
      by_cases hk : k s <;>
        simp [filterIdxFrom, hk, ih (s + 1) ys, h1]

theorem length_filterIdxFrom {α : Type} (k : Nat → Bool) (xs : List α) :
    ∀ s : Nat, (filterIdxFrom k s xs).length = countFrom k s xs.length := by
  induction xs with
  | nil => intro s; simp [filterIdxFrom, countFrom]
  | cons x tl ih =>
      intro s
      by_cases hk : k s
      · simp [filterIdxFrom, countFrom, hk, ih (s + 1)]
        omega
      · simp [filterIdxFrom, countFrom, hk, ih (s + 1)]

theorem mem_of_mem_filterIdxFrom {α : Type} (k : Nat → Bool) (xs : List α) :
    ∀ (s : Nat) (x : α), x ∈ filterIdxFrom k s xs → x ∈ xs := by
  induction xs with
  | nil => intro s x h; simp [filterIdxFrom] at h
  | cons y tl ih =>
      intro s x h
      by_cases hk : k s
      · simp only [filterIdxFrom, hk, if_true, List.mem_cons] at h
        rcases h with h | h
        · exact h ▸ List.mem_cons_self y tl
        · exact List.mem_cons_of_mem y (ih (s + 1) x h)
      · simp only [filterIdxFrom, hk, if_false] at h
        exact List.mem_cons_of_mem y (ih (s + 1) x h)

theorem countFrom_succ_right (k : Nat → Bool) (i : Nat) :
    ∀ s : Nat, countFrom k s (i + 1) =
      countFrom k s i + (if k (s + i) then 1 else 0) := by
  induction i with
  | zero => intro s; simp [countFrom]
  | succ j ih =>
      intro s
      have h1 : s + (j + 1) = (s + 1) + j := by omega
      have e1 : countFrom k s (j + 1 + 1) =
          (if k s then 1 else 0) + countFrom k (s + 1) (j + 1) := rfl
      have e2 : countFrom k s (j + 1) =
          (if k s then 1 else 0) + countFrom k (s + 1) j := rfl
      rw [e1, e2, ih (s + 1), h1]
      exact (Nat.add_assoc _ _ _).symm

theorem countFrom_add_compl (k : Nat → Bool) (i : Nat) :
    ∀ s : Nat, countFrom k s i + countFrom (fun j => !k j) s i = i := by
  induction i with
  | zero => intro s; simp [countFrom]
  | succ j ih =>
      intro s
      simp only [countFrom]
      have := ih (s + 1)
      by_cases hk : k s <;> simp [hk] <;> omega

theorem countFrom_le (k : Nat → Bool) (i : Nat) :
    ∀ s : Nat, countFrom k s i ≤ i := by
  induction i with
  | zero => intro s; simp [countFrom]
  | succ j ih =>
      intro s
      simp only [countFrom]
      have := ih (s + 1)
      by_cases hk : k s <;> simp [hk] <;> omega

theorem countFrom_lt_of_keep (k : Nat → Bool) (t n : Nat)
    (ht : k t = true) (hlt : t < n) : countFrom k 0 t < countFrom k 0 n := by
  induction n with
  | zero => omega
  | succ m ih =>
      rw [countFrom_succ_right k m 0]
      rcases Nat.lt_succ_iff_lt_or_eq.mp hlt with h | h
      · have := ih h; omega
      · subst h
        simp only [Nat.zero_add, ht, if_true]
        omega

theorem mem_removedBelow (k : Nat → Bool) (n : Nat) :
    ∀ r : Nat, r ∈ removedBelow k n ↔ r < n ∧ k r = false := by
  induction n with
  | zero => intro r; simp [removedBelow]
  | succ m ih =>
      intro r
      cases hk : k m with
      | true =>
          have hstep : removedBelow k (m + 1) = removedBelow k m := by
            simp [removedBelow, hk]
          rw [hstep, ih r]
          constructor
          · rintro ⟨h1, h2⟩; exact ⟨Nat.lt_succ_of_lt h1, h2⟩
          · rintro ⟨h1, h2⟩
            refine ⟨?_, h2⟩
            rcases Nat.lt_succ_iff_lt_or_eq.mp h1 with h | h
            · exact h
            · subst h; rw [hk] at h2; cases h2
      | false =>
          have hstep : removedBelow k (m + 1) = m :: removedBelow k m := by
            simp [removedBelow, hk]
          rw [hstep, List.mem_cons, ih r]
          constructor
          · rintro (h | ⟨h1, h2⟩)
            · subst h; exact ⟨Nat.lt_succ_self _, hk⟩
            · exact ⟨Nat.lt_succ_of_lt h1, h2⟩
          · rintro ⟨h1, h2⟩
            rcases Nat.lt_succ_iff_lt_or_eq.mp h1 with h | h
            · exact Or.inr ⟨h, h2⟩
            · exact Or.inl h

theorem length_removedBelow (k : Nat → Bool) (n : Nat) :
    (removedBelow k n).length = countFrom (fun j => !k j) 0 n := by
  induction n with
  | zero => simp [removedBelow, countFrom]
  | succ m ih =>
      rw [countFrom_succ_right]
      by_cases hk : k m <;> simp [removedBelow, hk, ih]

theorem shiftFor_removedBelow (k : Nat → Bool) (t : Nat) (ht : k t = true) :
    ∀ n : Nat, t < n →
      shiftFor (removedBelow k n) t = countFrom (fun j => !k j) 0 t := by
  intro n
  induction n with
  | zero => omega
  | succ m ih =>
      intro hlt
      rcases Nat.lt_succ_iff_lt_or_eq.mp hlt with h | h
      · cases hk : k m with
        | true =>
            have hstep : removedBelow k (m + 1) = removedBelow k m := by
              simp [removedBelow, hk]
            rw [hstep]; exact ih h
        | false =>
            have hstep : removedBelow k (m + 1) = m :: removedBelow k m := by
              simp [removedBelow, hk]
            have hmt : ¬ (m ≤ t) := by omega
            rw [hstep]
            have hfil : (m :: removedBelow k m).filter (fun r => r ≤ t) =
                (removedBelow k m).filter (fun r => r ≤ t) := by
              simp [List.filter, hmt]
            unfold shiftFor
            rw [hfil]
            exact ih h
      · subst h
        have hstep : removedBelow k (t + 1) = removedBelow k t := by
          simp [removedBelow, ht]
        rw [hstep]
        have hall : ∀ r ∈ removedBelow k t, decide (r ≤ t) = true := by
          intro r hr
          have := (mem_removedBelow k t r).mp hr
          simp [Nat.le_of_lt this.1]
        calc shiftFor (removedBelow k t) t
            = (removedBelow k t).length := by
              unfold shiftFor
              rw [List.filter_eq_self.mpr hall]
          _ = countFrom (fun j => !k j) 0 t := length_removedBelow k t

theorem eraseUnrefLoop_fst {α : Type} (k : Nat → Bool) :
    ∀ (i : Nat) (ys : List α) (rem : List Nat), i ≤ ys.length →
      (eraseUnrefLoop k i ys rem).1 =
        filterIdxFrom k 0 (ys.take i) ++ ys.drop i := by
  intro i
  induction i with
  | zero => intro ys rem h; simp [eraseUnrefLoop, filterIdxFrom]
  | succ j ih =>
      intro ys rem h
      have hj : j < ys.length := h
      have htake : ys.take (j + 1) = ys.take j ++ [ys[j]] := by
        rw [List.take_succ, List.getElem?_eq_getElem hj]
        rfl
      have hlen : (ys.take j).length = j := by
        simp [List.length_take]
        omega
      have hfsplit : filterIdxFrom k 0 (ys.take (j + 1)) =
          filterIdxFrom k 0 (ys.take j) ++ filterIdxFrom k j [ys[j]] := by
        rw [htake, filterIdxFrom_append, hlen]
        simp
      cases hk : k j with
      | true =>
          have hstep : eraseUnrefLoop k (j + 1) ys rem =
              eraseUnrefLoop k j ys rem := by
            simp [eraseUnrefLoop, hk]
          have hone : filterIdxFrom k j [ys[j]] = [ys[j]] := by
            simp [filterIdxFrom, hk]
          have hdrop : ys.drop j = ys[j] :: ys.drop (j + 1) :=
            List.drop_eq_getElem_cons hj
          rw [hstep, ih ys rem (Nat.le_of_lt hj), hfsplit, hone, hdrop]
          simp
      | false =>
          have hstep : eraseUnrefLoop k (j + 1) ys rem =
              eraseUnrefLoop k j (ys.eraseIdx j) (rem ++ [j]) := by
            simp [eraseUnrefLoop, hk]
          have hone : filterIdxFrom k j [ys[j]] = ([] : List α) := by
            simp [filterIdxFrom, hk]
          have herase : ys.eraseIdx j = ys.take j ++ ys.drop (j + 1) :=
            List.eraseIdx_eq_take_drop_succ ys j
          have hlen2 : j ≤ (ys.eraseIdx j).length := by
            rw [List.length_eraseIdx_of_lt hj]; omega
          have ht2 : (ys.eraseIdx j).take j = ys.take j := by
            rw [herase]; exact List.take_left' hlen
          have hd2 : (ys.eraseIdx j).drop j = ys.drop (j + 1) := by
            rw [herase]; exact List.drop_left' hlen
          rw [hstep, ih (ys.eraseIdx j) (rem ++ [j]) hlen2, ht2, hd2,
            hfsplit, hone]
          simp

theorem eraseUnrefLoop_snd {α : Type} (k : Nat → Bool) :
    ∀ (i : Nat) (ys : List α) (rem : List Nat),
      (eraseUnrefLoop k i ys rem).2 = rem ++ removedBelow k i := by
  intro i
  induction i with
  | zero => intro ys rem; simp [eraseUnrefLoop, removedBelow]
  | succ j ih =>
      intro ys rem
      by_cases hk : k j
      · simp [eraseUnrefLoop, hk, removedBelow, ih]
      · simp [eraseUnrefLoop, hk, removedBelow, ih]

theorem filterIdxFrom_getElem {α : Type} (k : Nat → Bool) (xs : List α) :
    ∀ (s t : Nat), t < xs.length → k (s + t) = true →
      (filterIdxFrom k s xs)[countFrom k s t]? = xs[t]? := by
  induction xs with
  | nil => intro s t ht hk; simp at ht
  | cons x tl ih =>
      intro s t ht hk
      cases t with
      | zero =>
          have hks : k s = true := by simpa using hk
          simp [filterIdxFrom, hks, countFrom]
      | succ u =>
          have hu : u < tl.length := by simpa using ht
          have hk2 : k ((s + 1) + u) = true := by
            have heq : s + (u + 1) = (s + 1) + u := by omega
            rwa [heq] at hk
          cases hks : k s with
          | true =>
              have hstep : filterIdxFrom k s (x :: tl) =
                  x :: filterIdxFrom k (s + 1) tl := by
                simp [filterIdxFrom, hks]
              have hcnt : countFrom k s (u + 1) =
                  1 + countFrom k (s + 1) u := by
                simp [countFrom, hks]
              rw [hstep, hcnt, Nat.add_comm 1 (countFrom k (s + 1) u)]
              simp only [List.getElem?_cons_succ]
              exact ih (s + 1) u hu hk2
          | false =>
              have hstep : filterIdxFrom k s (x :: tl) =
                  filterIdxFrom k (s + 1) tl := by
                simp [filterIdxFrom, hks]
              have hcnt : countFrom k s (u + 1) =
                  countFrom k (s + 1) u := by
                simp [countFrom, hks]
              rw [hstep, hcnt]
              simp only [List.getElem?_cons_succ]
              exact ih (s + 1) u hu hk2

-- =============================================================================
-- Bitmap characterizations
-- =============================================================================

/-- Whether one of the four texture slots of `m` holds index `p`. -/
def materialRefsTex (m : Material) (p : Nat) : Prop :=
  m.baseColorTexture = (p : Int) ∨ m.metallicRoughnessTexture = (p : Int) ∨
    m.normalTexture = (p : Int) ∨ m.emissiveTexture = (p : Int)

instance (m : Material) (p : Nat) : Decidable (materialRefsTex m p) := by
  unfold materialRefsTex; infer_instance

theorem getD_set_true (bm : List Bool) :
    ∀ (i p : Nat), p < bm.length →
      (bm.set i true).getD p false = (bm.getD p false || decide (i = p)) := by
  induction bm with
  | nil => intro i p h; simp at h
  | cons b tl ih =>
      intro i p h
      cases i with
      | zero =>
          cases p with
          | zero => simp [List.set]
          | succ q => simp [List.set]
      | succ j =>
          cases p with
          | zero => simp [List.set]
          | succ q =>
              have hq : q < tl.length := by simpa using h
              have e : (b :: tl).set (j + 1) true = b :: tl.set j true := rfl
              rw [e, List.getD_cons_succ, List.getD_cons_succ, ih j q hq]
              by_cases hjq : j = q <;> simp [hjq]

theorem getD_replicate_false (n p : Nat) :
    (List.replicate n false).getD p false = false := by
  rw [List.getD_eq_getElem?_getD, List.getElem?_replicate]
  by_cases h : p < n <;> simp [h]

theorem length_markTex (bm : List Bool) (idx : Int) :
    (markTex bm idx).length = bm.length := by
  unfold markTex; split <;> simp

theorem length_markMaterialTextures (bm : List Bool) (m : Material) :
    (markMaterialTextures bm m).length = bm.length := by
  unfold markMaterialTextures
  simp [length_markTex]

theorem markTex_getD (bm : List Bool) (idx : Int) (p : Nat)
    (hp : p < bm.length) :
    (markTex bm idx).getD p false =
      (bm.getD p false || decide (idx = (p : Int))) := by
  unfold markTex
  by_cases hg : 0 ≤ idx ∧ idx < (bm.length : Int)
  · rw [if_pos hg, getD_set_true bm _ p hp]
    by_cases he : idx = (p : Int)
    · have ht : idx.toNat = p := by omega
      simp [ht, he]
    · have ht : idx.toNat ≠ p := by
        intro hcon
        apply he
        omega
      simp [ht, he]
  · rw [if_neg hg]
    have hne : idx ≠ (p : Int) := by
      intro hcon
      apply hg
      subst hcon
      constructor
      · exact Int.natCast_nonneg p
      · exact_mod_cast hp
    simp [hne]

theorem markMaterialTextures_getD (bm : List Bool) (m : Material) (p : Nat)
    (hp : p < bm.length) :
    (markMaterialTextures bm m).getD p false =
      (bm.getD p false || decide (materialRefsTex m p)) := by
  unfold markMaterialTextures
  have l1 := length_markTex bm m.baseColorTexture
  have l2 := length_markTex (markTex bm m.baseColorTexture)
    m.metallicRoughnessTexture
  have l3 := length_markTex
    (markTex (markTex bm m.baseColorTexture) m.metallicRoughnessTexture)
    m.normalTexture
  rw [markTex_getD _ _ p (by omega), markTex_getD _ _ p (by omega),
    markTex_getD _ _ p (by omega), markTex_getD _ _ p hp]
  by_cases h1 : m.baseColorTexture = (p : Int) <;>
    by_cases h2 : m.metallicRoughnessTexture = (p : Int) <;>
    by_cases h3 : m.normalTexture = (p : Int) <;>
    by_cases h4 : m.emissiveTexture = (p : Int) <;>
    simp [materialRefsTex, h1, h2, h3, h4]

theorem foldl_set_getD (meshes : List Mesh) :
    ∀ (bm : List Bool) (p : Nat), p < bm.length →
      ((meshes.foldl (fun acc m => acc.set m.materialIndex true) bm).getD
          p false)
        = (bm.getD p false ||
            meshes.any (fun m => decide (m.materialIndex = p))) := by
  induction meshes with
  | nil => intro bm p h; simp
  | cons m tl ih =>
      intro bm p h
      have hlen : p < (bm.set m.materialIndex true).length := by simpa using h
      simp only [List.foldl_cons, List.any_cons]
      rw [ih _ p hlen, getD_set_true bm _ p h]
      by_cases hd : m.materialIndex = p <;> simp [hd]

theorem matReferencedBitmap_getD (meshes : List Mesh) (n p : Nat)
    (hp : p < n) :
    (matReferencedBitmap meshes n).getD p false = true ↔
      ∃ m ∈ meshes, m.materialIndex = p := by
  unfold matReferencedBitmap
  rw [foldl_set_getD meshes _ p (by simpa using hp), getD_replicate_false]
  simp

theorem foldl_mark_getD (mats : List Material) :
    ∀ (bm : List Bool) (p : Nat), p < bm.length →
      ((mats.foldl markMaterialTextures bm).getD p false)
        = (bm.getD p false ||
            mats.any (fun m => decide (materialRefsTex m p))) := by
  induction mats with
  | nil => intro bm p h; simp
  | cons m tl ih =>
      intro bm p h
      have hlen : p < (markMaterialTextures bm m).length := by
        rw [length_markMaterialTextures]; exact h
      simp only [List.foldl_cons, List.any_cons]
      rw [ih _ p hlen, markMaterialTextures_getD bm m p h]
      by_cases hd : materialRefsTex m p <;> simp [hd]

theorem texReferencedBitmap_getD (mats : List Material) (n p : Nat)
    (hp : p < n) :
    (texReferencedBitmap mats n).getD p false = true ↔
      ∃ m ∈ mats, materialRefsTex m p := by
  unfold texReferencedBitmap
  rw [foldl_mark_getD mats _ p (by simpa using hp), getD_replicate_false]
  simp

-- =============================================================================
-- delete_mesh: structural facts about the compaction stages
-- =============================================================================

theorem compactedMaterials_eq (st : RendererTables) (i : Nat) :
    compactedMaterials st i = filterIdxFrom (matKeep st i) 0 st.materials := by
  unfold compactedMaterials
  rw [eraseUnrefLoop_fst (matKeep st i) st.materials.length st.materials []
    (Nat.le_refl _), List.take_length, List.drop_length, List.append_nil]

theorem removedMatIndices_eq (st : RendererTables) (i : Nat) :
    removedMatIndices st i =
      removedBelow (matKeep st i) st.materials.length := by
  unfold removedMatIndices
  rw [eraseUnrefLoop_snd]
  simp

theorem compactedTextures_eq (st : RendererTables) (i : Nat) :
    compactedTextures st i = filterIdxFrom (texKeep st i) 0 st.textures := by
  unfold compactedTextures
  rw [eraseUnrefLoop_fst (texKeep st i) st.textures.length st.textures []
    (Nat.le_refl _), List.take_length, List.drop_length, List.append_nil]

theorem removedTexIndices_eq (st : RendererTables) (i : Nat) :
    removedTexIndices st i =
      removedBelow (texKeep st i) st.textures.length := by
  unfold removedTexIndices
  rw [eraseUnrefLoop_snd]
  simp

theorem delete_mesh_of_lt (st : RendererTables) (i : Nat)
    (h : i < st.meshes.length) :
    delete_mesh st i =
      { meshes := (survivingMeshes st i).map
          (fixMesh (removedMatIndices st i))
        materials := (compactedMaterials st i).map
          (fixMaterial (removedTexIndices st i))
        textures := compactedTextures st i
        rebuilds := st.rebuilds + 1 } := by
  unfold delete_mesh
  rw [if_neg (by omega)]

/-- A material index referenced by a surviving mesh is kept. -/
theorem matKeep_of_mem (st : RendererTables) (i : Nat) (m : Mesh)
    (hm : m ∈ survivingMeshes st i)
    (hlt : m.materialIndex < st.materials.length) :
    matKeep st i m.materialIndex = true := by
  unfold matKeep
  exact (matReferencedBitmap_getD _ _ _ hlt).mpr ⟨m, hm, rfl⟩

/-- A texture index referenced (in range) by a surviving material is kept by
the step-6 erase loop, whether or not it was a step-3 candidate. -/
theorem texKeep_of_refs (st : RendererTables) (i : Nat) (mat : Material)
    (hmat : mat ∈ compactedMaterials st i) (p : Nat)
    (hp : p < st.textures.length) (href : materialRefsTex mat p) :
    texKeep st i p = true := by
  unfold texKeep
  have hrt : (texReferencedBitmap (compactedMaterials st i)
      st.textures.length).getD p false = true :=
    (texReferencedBitmap_getD _ _ _ hp).mpr ⟨mat, hmat, href⟩
  rw [hrt]
  simp

/-- For a kept index, the fix-up subtraction lands on its position in the
compacted table. -/
theorem fixup_index (k : Nat → Bool) (t n : Nat) (ht : k t = true)
    (hlt : t < n) :
    t - shiftFor (removedBelow k n) t = countFrom k 0 t := by
  rw [shiftFor_removedBelow k t ht n hlt]
  have := countFrom_add_compl k t 0
  omega

theorem shiftFor_removed_le (k : Nat → Bool) (t n : Nat) (ht : k t = true)
    (hlt : t < n) : shiftFor (removedBelow k n) t ≤ t := by
  rw [shiftFor_removedBelow k t ht n hlt]
  have := countFrom_add_compl k t 0
  omega

theorem SlotOK_mono (s : Int) (n n2 : Nat) (h : SlotOK s n) (hle : n ≤ n2) :
    SlotOK s n2 := by
  rcases h with h | ⟨h1, h2⟩
  · exact Or.inl h
  · refine Or.inr ⟨h1, ?_⟩
    have : (n : Int) ≤ (n2 : Int) := by exact_mod_cast hle
    omega

/-- Core fact for one surviving material slot: the fixed-up slot is the
`-1` sentinel if it was, and otherwise denotes a valid index into the
compacted texture table. -/
theorem slot_fix_ok (st : RendererTables) (i : Nat) (mat : Material)
    (hmat : mat ∈ compactedMaterials st i) (s : Int)
    (hs : SlotOK s st.textures.length)
    (href : 0 ≤ s → materialRefsTex mat s.toNat) :
    SlotOK (fixTexSlot (removedTexIndices st i) s)
      (compactedTextures st i).length := by
  rcases hs with h | ⟨h1, h2⟩
  · subst h
    unfold fixTexSlot
    rw [if_pos (by omega)]
    exact Or.inl rfl
  · have hp : s.toNat < st.textures.length := by omega
    have hkeep : texKeep st i s.toNat = true :=
      texKeep_of_refs st i mat hmat s.toNat hp (href h1)
    have hses : ((s.toNat : Nat) : Int) = s := Int.toNat_of_nonneg h1
    unfold fixTexSlot
    rw [if_neg (by omega)]
    rw [removedTexIndices_eq]
    have hfix := fixup_index (texKeep st i) s.toNat st.textures.length
      hkeep hp
    have hle := shiftFor_removed_le (texKeep st i) s.toNat
      st.textures.length hkeep hp
    have hlt2 : countFrom (texKeep st i) 0 s.toNat <
        countFrom (texKeep st i) 0 st.textures.length :=
      countFrom_lt_of_keep (texKeep st i) s.toNat st.textures.length
        hkeep hp
    have hlen : (compactedTextures st i).length =
        countFrom (texKeep st i) 0 st.textures.length := by
      rw [compactedTextures_eq, length_filterIdxFrom]
    refine Or.inr ⟨?_, ?_⟩
    · omega
    · rw [hlen]; omega

theorem slotOK_offsetSlot (s : Int) (scTex stTex : Nat)
    (h : SlotOK s scTex) : SlotOK (offsetSlot stTex s) (stTex + scTex) := by
  rcases h with h | ⟨h1, h2⟩
  · subst h
    unfold offsetSlot
    rw [if_neg (by omega)]
    exact Or.inl rfl
  · unfold offsetSlot
    rw [if_pos h1]
    refine Or.inr ⟨by omega, ?_⟩
    push_cast
    omega

-- =============================================================================
-- C1: the index invariant is preserved by import and delete
-- =============================================================================

/-- C1: after every `Renderer::import_gltf` (of a well-formed loaded scene)
and every `Renderer::delete_mesh`, every mesh's `materialIndex` is below the
material-table size and every material's four texture slots are `-1` or below
the texture-table size, starting from any state satisfying the invariant
(including runs that empty the tables). -/
theorem index_invariant_preserved (st : RendererTables) (hInv : Inv st) :
    (∀ sc : Scene, SceneOK sc → Inv (import_gltf_tables st sc)) ∧
    (∀ i : Nat, Inv (delete_mesh st i)) := by
  obtain ⟨hMesh, hMat⟩ := hInv
  constructor
  · intro sc hsc
    obtain ⟨hsMesh, hsMat⟩ := hsc
    constructor
    · intro m hm
      simp only [import_gltf_tables, List.length_append, List.length_map,
        List.mem_append, List.mem_map] at hm ⊢
      rcases hm with h | h
      · have := hMesh m h
        omega
      · obtain ⟨m0, hm0, rfl⟩ := h
        have := hsMesh m0 hm0
        simp only [offsetMesh]
        omega
    · intro mat hmat
      simp only [import_gltf_tables, List.length_append, List.mem_append,
        List.mem_map] at hmat ⊢
      rcases hmat with h | h
      · have h4 := hMat mat h
        have hle : st.textures.length ≤
            st.textures.length + sc.textures.length := by omega
        exact ⟨SlotOK_mono _ _ _ h4.1 hle, SlotOK_mono _ _ _ h4.2.1 hle,
          SlotOK_mono _ _ _ h4.2.2.1 hle, SlotOK_mono _ _ _ h4.2.2.2 hle⟩
      · obtain ⟨mat0, hm0, rfl⟩ := h
        have h4 := hsMat mat0 hm0
        exact ⟨slotOK_offsetSlot _ _ _ h4.1, slotOK_offsetSlot _ _ _ h4.2.1,
          slotOK_offsetSlot _ _ _ h4.2.2.1, slotOK_offsetSlot _ _ _ h4.2.2.2⟩
  · intro i
    by_cases hge : st.meshes.length ≤ i
    · unfold delete_mesh
      rw [if_pos hge]
      exact ⟨hMesh, hMat⟩
    · have hi : i < st.meshes.length := by omega
      rw [delete_mesh_of_lt st i hi]
      constructor
      · intro m2 hm2
        simp only [List.mem_map] at hm2
        obtain ⟨m, hmem, rfl⟩ := hm2
        have hmm : m ∈ st.meshes :=
          (List.eraseIdx_sublist st.meshes i).subset hmem
        have ht : m.materialIndex < st.materials.length := hMesh m hmm
        have hk : matKeep st i m.materialIndex = true :=
          matKeep_of_mem st i m hmem ht
        simp only [List.length_map, fixMesh]
        rw [compactedMaterials_eq, length_filterIdxFrom,
          removedMatIndices_eq,
          fixup_index (matKeep st i) m.materialIndex st.materials.length
            hk ht]
        exact countFrom_lt_of_keep (matKeep st i) m.materialIndex
          st.materials.length hk ht
      · intro mat2 hmat2
        simp only [List.mem_map] at hmat2
        obtain ⟨mat, hmem, rfl⟩ := hmat2
        have hmm : mat ∈ st.materials := by
          rw [compactedMaterials_eq] at hmem
          exact mem_of_mem_filterIdxFrom _ _ _ _ hmem
        have h4 := hMat mat hmm
        refine ⟨?_, ?_, ?_, ?_⟩
        · exact slot_fix_ok st i mat hmem mat.baseColorTexture h4.1
            (fun hpos => Or.inl (Int.toNat_of_nonneg hpos).symm)
        · exact slot_fix_ok st i mat hmem mat.metallicRoughnessTexture
            h4.2.1
            (fun hpos => Or.inr (Or.inl (Int.toNat_of_nonneg hpos).symm))
        · exact slot_fix_ok st i mat hmem mat.normalTexture h4.2.2.1
            (fun hpos =>
              Or.inr (Or.inr (Or.inl (Int.toNat_of_nonneg hpos).symm)))
        · exact slot_fix_ok st i mat hmem mat.emissiveTexture h4.2.2.2
            (fun hpos =>
              Or.inr (Or.inr (Or.inr (Int.toNat_of_nonneg hpos).symm)))

/-- Example state for the C1 witness: three meshes over two materials over
two textures, all indices valid. -/
def exSt1 : RendererTables :=
  { meshes := [⟨0⟩, ⟨1⟩, ⟨0⟩]
    materials := [⟨0, -1, -1, -1⟩, ⟨1, 0, -1, -1⟩]
    textures := [⟨4, 4, [], true, 1⟩, ⟨2, 2, [], false, 1⟩]
    rebuilds := 0 }

/-- Example imported scene for the C1 witness. -/
def exScene1 : Scene :=
  { meshes := [⟨0⟩]
    materials := [⟨0, -1, -1, -1⟩]
    textures := [⟨1, 1, [], true, 1⟩] }

/-- Witness for C1 at a concrete state, scene and delete index. -/
theorem index_invariant_preserved_witness :
    Inv (import_gltf_tables exSt1 exScene1) ∧ Inv (delete_mesh exSt1 2) :=
  ⟨(index_invariant_preserved exSt1 (by decide)).1 exScene1 (by decide),
   (index_invariant_preserved exSt1 (by decide)).2 2⟩

-- =============================================================================
-- Content preservation across delete (shared by C2 and C4)
-- =============================================================================

/-- Whether `s` is one of the four texture slots of `mat`. -/
def SlotOf (mat : Material) (s : Int) : Prop :=
  s = mat.baseColorTexture ∨ s = mat.metallicRoughnessTexture ∨
    s = mat.normalTexture ∨ s = mat.emissiveTexture

instance (mat : Material) (s : Int) : Decidable (SlotOf mat s) := by
  unfold SlotOf; infer_instance

theorem delete_mesh_meshes (st : RendererTables) (i : Nat)
    (hi : i < st.meshes.length) :
    (delete_mesh st i).meshes =
      (survivingMeshes st i).map (fixMesh (removedMatIndices st i)) := by
  rw [delete_mesh_of_lt st i hi]

theorem delete_mesh_materials (st : RendererTables) (i : Nat)
    (hi : i < st.meshes.length) :
    (delete_mesh st i).materials =
      (compactedMaterials st i).map (fixMaterial (removedTexIndices st i)) := by
  rw [delete_mesh_of_lt st i hi]

theorem delete_mesh_textures (st : RendererTables) (i : Nat)
    (hi : i < st.meshes.length) :
    (delete_mesh st i).textures = compactedTextures st i := by
  rw [delete_mesh_of_lt st i hi]

/-- Each surviving mesh's fixed-up material index retrieves, in the new
table, exactly the material that its old index retrieved in the old table
(modulo that material's own slot fix-up). -/
theorem surviving_mesh_material_content (st : RendererTables) (i : Nat)
    (hi : i < st.meshes.length) (hInv : Inv st) :
    ∀ m ∈ survivingMeshes st i,
      (delete_mesh st i).materials[(fixMesh (removedMatIndices st i)
          m).materialIndex]? =
        (st.materials[m.materialIndex]?).map
          (fixMaterial (removedTexIndices st i)) := by
  intro m hmem
  have hmm : m ∈ st.meshes := (List.eraseIdx_sublist st.meshes i).subset hmem
  have ht : m.materialIndex < st.materials.length := hInv.1 m hmm
  have hk : matKeep st i m.materialIndex = true :=
    matKeep_of_mem st i m hmem ht
  rw [delete_mesh_materials st i hi, List.getElem?_map]
  congr 1
  show (compactedMaterials st i)[(fixMesh (removedMatIndices st i)
      m).materialIndex]? = st.materials[m.materialIndex]?
  have hidx : (fixMesh (removedMatIndices st i) m).materialIndex =
      countFrom (matKeep st i) 0 m.materialIndex := by
    unfold fixMesh
    rw [removedMatIndices_eq,
      fixup_index (matKeep st i) m.materialIndex st.materials.length hk ht]
  rw [hidx, compactedMaterials_eq]
  exact filterIdxFrom_getElem (matKeep st i) st.materials 0 m.materialIndex
    ht (by simpa using hk)

/-- Each surviving material's fixed-up non-negative slot retrieves, in the
new texture table, exactly the texture its old value retrieved. -/
theorem surviving_texture_content (st : RendererTables) (i : Nat)
    (hi : i < st.meshes.length) (hInv : Inv st) :
    ∀ mat ∈ compactedMaterials st i, ∀ s : Int, SlotOf mat s → 0 ≤ s →
      (delete_mesh st i).textures[(fixTexSlot (removedTexIndices st i)
          s).toNat]? =
        st.textures[s.toNat]? := by
  intro mat hmem s hslot hpos
  have hmm : mat ∈ st.materials := by
    rw [compactedMaterials_eq] at hmem
    exact mem_of_mem_filterIdxFrom _ _ _ _ hmem
  have h4 := hInv.2 mat hmm
  have hsOK : SlotOK s st.textures.length := by
    rcases hslot with h | h | h | h <;> subst h
    · exact h4.1
    · exact h4.2.1
    · exact h4.2.2.1
    · exact h4.2.2.2
  rcases hsOK with hneg | ⟨h1, h2⟩
  · omega
  · have hp : s.toNat < st.textures.length := by omega
    have hses : ((s.toNat : Nat) : Int) = s := Int.toNat_of_nonneg hpos
    have href : materialRefsTex mat s.toNat := by
      rcases hslot with h | h | h | h
      · exact Or.inl (by omega)
      · exact Or.inr (Or.inl (by omega))
      · exact Or.inr (Or.inr (Or.inl (by omega)))
      · exact Or.inr (Or.inr (Or.inr (by omega)))
    have hkeep : texKeep st i s.toNat = true :=
      texKeep_of_refs st i mat hmem s.toNat hp href
    have heq : (fixTexSlot (removedTexIndices st i) s).toNat =
        countFrom (texKeep st i) 0 s.toNat := by
      unfold fixTexSlot
      rw [if_neg (by omega), removedTexIndices_eq]
      have hfix := fixup_index (texKeep st i) s.toNat st.textures.length
        hkeep hp
      have hle := shiftFor_removed_le (texKeep st i) s.toNat
        st.textures.length hkeep hp
      omega
    rw [delete_mesh_textures st i hi, heq, compactedTextures_eq]
    exact filterIdxFrom_getElem (texKeep st i) st.textures 0 s.toNat hp
      (by simpa using hkeep)

-- =============================================================================
-- C2: delete never destroys a still-referenced material or texture
-- =============================================================================

/-- C2: deleting a valid mesh removes only materials referenced by no
surviving mesh and only textures referenced by no surviving material; a
step-3 candidate texture that a surviving material still references is kept;
and every surviving mesh still retrieves the same material content (its
numeric index may shift, and that material retrieves the same textures). -/
theorem delete_no_dangling (st : RendererTables) (i : Nat)
    (hi : i < st.meshes.length) (hInv : Inv st) :
    (∀ p ∈ removedMatIndices st i,
      ∀ m ∈ survivingMeshes st i, m.materialIndex ≠ p) ∧
    (∀ q ∈ removedTexIndices st i,
      ∀ mat ∈ compactedMaterials st i, ¬ materialRefsTex mat q) ∧
    (∀ q, q < st.textures.length →
      (texCandidateBitmap st i).getD q false = true →
      (texReferencedBitmap (compactedMaterials st i)
        st.textures.length).getD q false = true →
      q ∉ removedTexIndices st i) ∧
    (∀ m ∈ survivingMeshes st i,
      (delete_mesh st i).materials[(fixMesh (removedMatIndices st i)
          m).materialIndex]? =
        (st.materials[m.materialIndex]?).map
          (fixMaterial (removedTexIndices st i))) ∧
    (∀ mat ∈ compactedMaterials st i, ∀ s : Int, SlotOf mat s → 0 ≤ s →
      (delete_mesh st i).textures[(fixTexSlot (removedTexIndices st i)
          s).toNat]? =
        st.textures[s.toNat]?) := by
  refine ⟨?_, ?_, ?_,
    surviving_mesh_material_content st i hi hInv,
    surviving_texture_content st i hi hInv⟩
  · intro p hp m hm hcon
    rw [removedMatIndices_eq] at hp
    obtain ⟨hplt, hpk⟩ := (mem_removedBelow _ _ _).mp hp
    have : matKeep st i p = true := by
      rw [← hcon]
      exact matKeep_of_mem st i m hm (hcon ▸ hplt)
    rw [this] at hpk
    cases hpk
  · intro q hq mat hmat hcon
    rw [removedTexIndices_eq] at hq
    obtain ⟨hqlt, hqk⟩ := (mem_removedBelow _ _ _).mp hq
    have : texKeep st i q = true :=
      texKeep_of_refs st i mat hmat q hqlt hcon
    rw [this] at hqk
    cases hqk
  · intro q hqlt hcand href hmem
    rw [removedTexIndices_eq] at hmem
    obtain ⟨_, hqk⟩ := (mem_removedBelow _ _ _).mp hmem
    unfold texKeep at hqk
    rw [hcand, href] at hqk
    simp at hqk

/-- Example state for the C2 witness: meshes 0 and 1 share material 0
(texture 0); mesh 2 owns material 1 (textures 1 and 0, sharing texture 0). -/
def exSt2 : RendererTables :=
  { meshes := [⟨0⟩, ⟨0⟩, ⟨1⟩]
    materials := [⟨0, -1, -1, -1⟩, ⟨1, 0, -1, -1⟩]
    textures := [⟨4, 4, [], true, 1⟩, ⟨2, 2, [], false, 1⟩]
    rebuilds := 0 }

/-- Witness for C2: deleting mesh 2 of the example state, the surviving mesh
`⟨0⟩` still retrieves its material content at the fixed-up index. -/
theorem delete_no_dangling_witness :
    (delete_mesh exSt2 2).materials[(fixMesh (removedMatIndices exSt2 2)
        ⟨0⟩).materialIndex]? =
      (exSt2.materials[(0 : Nat)]?).map
        (fixMaterial (removedTexIndices exSt2 2)) :=
  (delete_no_dangling exSt2 2 (by decide) (by decide)).2.2.2.1 ⟨0⟩
    (by decide)

-- =============================================================================
-- C4: the delete fix-up formulas and their correctness
-- =============================================================================

/-- C4: after the erasures in `delete_mesh`, every surviving mesh's
`materialIndex` drops by exactly the number of removed material indices at or
below it, every surviving material's non-negative slot drops, per slot, by
exactly the number of removed texture indices at or below it while `-1`
slots are untouched, and each fixed-up reference retrieves the same
material/texture content it did before the delete. -/
theorem delete_index_fixup (st : RendererTables) (i : Nat)
    (hi : i < st.meshes.length) (hInv : Inv st) :
    ((delete_mesh st i).meshes =
      (survivingMeshes st i).map (fun m =>
        { materialIndex := m.materialIndex -
            ((removedMatIndices st i).filter
              (fun r => r ≤ m.materialIndex)).length }) ∧
     (delete_mesh st i).materials =
      (compactedMaterials st i).map (fixMaterial (removedTexIndices st i)) ∧
     (∀ s : Int, fixTexSlot (removedTexIndices st i) s =
        if s < 0 then s
        else s - (((removedTexIndices st i).filter
            (fun r => r ≤ s.toNat)).length : Int))) ∧
    (∀ m ∈ survivingMeshes st i,
      (delete_mesh st i).materials[(fixMesh (removedMatIndices st i)
          m).materialIndex]? =
        (st.materials[m.materialIndex]?).map
          (fixMaterial (removedTexIndices st i))) ∧
    (∀ mat ∈ compactedMaterials st i, ∀ s : Int, SlotOf mat s → 0 ≤ s →
      (delete_mesh st i).textures[(fixTexSlot (removedTexIndices st i)
          s).toNat]? =
        st.textures[s.toNat]?) := by
  refine ⟨⟨?_, delete_mesh_materials st i hi, fun s => rfl⟩,
    surviving_mesh_material_content st i hi hInv,
    surviving_texture_content st i hi hInv⟩
  rw [delete_mesh_meshes st i hi]
  rfl

/-- Example state for the C4 witness (same shape as the C2 example). -/
def exSt4 : RendererTables :=
  { meshes := [⟨0⟩, ⟨0⟩, ⟨1⟩]
    materials := [⟨0, -1, -1, -1⟩, ⟨1, 0, -1, -1⟩]
    textures := [⟨4, 4, [], true, 1⟩, ⟨2, 2, [], false, 1⟩]
    rebuilds := 0 }

/-- Witness for C4: the mesh fix-up formula evaluated on a concrete delete. -/
theorem delete_index_fixup_witness :
    (delete_mesh exSt4 2).meshes =
      (survivingMeshes exSt4 2).map (fun m =>
        { materialIndex := m.materialIndex -
            ((removedMatIndices exSt4 2).filter
              (fun r => r ≤ m.materialIndex)).length }) :=
  (delete_index_fixup exSt4 2 (by decide) (by decide)).1.1

-- =============================================================================
-- C3: import offset correctness
-- =============================================================================

/-- C3: `import_gltf` takes `texOffset`/`matOffset` from the table sizes
before appending; the final sizes are the sums, pre-existing entries keep
their indices and values, each imported entry lands at its offset position
rewritten by exactly the offset (with `-1` slots untouched), and imported
mesh material indices start at `matOffset`, so they cannot collide with
pre-existing indices. -/
theorem import_offset_correct (st : RendererTables) (sc : Scene) :
    ((import_gltf_tables st sc).meshes.length =
        st.meshes.length + sc.meshes.length ∧
     (import_gltf_tables st sc).materials.length =
        st.materials.length + sc.materials.length ∧
     (import_gltf_tables st sc).textures.length =
        st.textures.length + sc.textures.length) ∧
    ((∀ j, j < st.meshes.length →
        (import_gltf_tables st sc).meshes[j]? = st.meshes[j]?) ∧
     (∀ j, j < st.materials.length →
        (import_gltf_tables st sc).materials[j]? = st.materials[j]?) ∧
     (∀ j, j < st.textures.length →
        (import_gltf_tables st sc).textures[j]? = st.textures[j]?)) ∧
    ((∀ j, (import_gltf_tables st sc).meshes[st.meshes.length + j]? =
        (sc.meshes[j]?).map (offsetMesh st.materials.length)) ∧
     (∀ j, (import_gltf_tables st sc).materials[st.materials.length + j]? =
        (sc.materials[j]?).map (offsetMaterial st.textures.length)) ∧
     (∀ j, (import_gltf_tables st sc).textures[st.textures.length + j]? =
        sc.textures[j]?)) ∧
    ((∀ s : Int, s = -1 → offsetSlot st.textures.length s = -1) ∧
     (∀ s : Int, 0 ≤ s →
        offsetSlot st.textures.length s = s + st.textures.length) ∧
     (∀ m : Mesh, (offsetMesh st.materials.length m).materialIndex =
        m.materialIndex + st.materials.length) ∧
     (∀ m : Mesh, st.materials.length ≤
        (offsetMesh st.materials.length m).materialIndex)) := by
  refine ⟨⟨?_, ?_, ?_⟩, ⟨?_, ?_, ?_⟩, ⟨?_, ?_, ?_⟩, ?_, ?_, ?_, ?_⟩
  · simp [import_gltf_tables]
  · simp [import_gltf_tables]
  · simp [import_gltf_tables]
  · intro j hj
    show (st.meshes ++ sc.meshes.map (offsetMesh st.materials.length))[j]? =
      st.meshes[j]?
    rw [List.getElem?_append, if_pos hj]
  · intro j hj
    show (st.materials ++
      sc.materials.map (offsetMaterial st.textures.length))[j]? =
      st.materials[j]?
    rw [List.getElem?_append, if_pos hj]
  · intro j hj
    show (st.textures ++ sc.textures)[j]? = st.textures[j]?
    rw [List.getElem?_append, if_pos hj]
  · intro j
    show (st.meshes ++
        sc.meshes.map (offsetMesh st.materials.length))[st.meshes.length +
          j]? = (sc.meshes[j]?).map (offsetMesh st.materials.length)
    rw [List.getElem?_append, if_neg (by omega), ← List.getElem?_map]
    congr 1
    omega
  · intro j
    show (st.materials ++
        sc.materials.map
          (offsetMaterial st.textures.length))[st.materials.length + j]? =
      (sc.materials[j]?).map (offsetMaterial st.textures.length)
    rw [List.getElem?_append, if_neg (by omega), ← List.getElem?_map]
    congr 1
    omega
  · intro j
    show (st.textures ++ sc.textures)[st.textures.length + j]? =
      sc.textures[j]?
    rw [List.getElem?_append, if_neg (by omega)]
    congr 1
    omega
  · intro s hs
    subst hs
    unfold offsetSlot
    rw [if_neg (by omega)]
  · intro s hs
    unfold offsetSlot
    rw [if_pos hs]
  · intro m
    rfl
  · intro m
    show st.materials.length ≤ m.materialIndex + st.materials.length
    omega

/-- Example state for the C3 witness. -/
def exSt3 : RendererTables :=
  { meshes := [⟨0⟩]
    materials := [⟨0, -1, -1, -1⟩]
    textures := [⟨4, 4, [], true, 1⟩]
    rebuilds := 0 }

/-- Example imported scene for the C3 witness: two meshes, one material
referencing its own texture 0. -/
def exScene3 : Scene :=
  { meshes := [⟨0⟩, ⟨0⟩]
    materials := [⟨0, -1, -1, -1⟩]
    textures := [⟨2, 2, [], false, 1⟩] }

/-- Witness for C3: the pre-existing material at index 0 is unchanged by a
concrete import. -/
theorem import_offset_correct_witness :
    (import_gltf_tables exSt3 exScene3).materials[(0 : Nat)]? =
      exSt3.materials[(0 : Nat)]? :=
  (import_offset_correct exSt3 exScene3).2.1.2.1 0 (by decide)

-- =============================================================================
-- C5: import is atomic when the asset load fails
-- =============================================================================

/-- C5: when `load_gltf` raises a decode error, `import_gltf` leaves the
mesh, material and texture tables exactly as they were: no entry is added,
removed or modified, and no GPU binding rebuild takes place (the rebuild
counter is part of the returned state, which is unchanged). -/
theorem import_atomic_on_load_failure (st : RendererTables) (e : String) :
    import_gltf st (Except.error e) = (st, Except.error e) := rfl

-- =============================================================================
-- C10: out-of-range delete is a no-op
-- =============================================================================

/-- C10: `delete_mesh` called with an index at or past the mesh-table size
returns before touching anything: the tables, all entries and the rebuild
counter are exactly the input state. -/
theorem delete_out_of_range_noop (st : RendererTables) (i : Nat)
    (h : st.meshes.length ≤ i) : delete_mesh st i = st := by
  unfold delete_mesh
  rw [if_pos h]

/-- Example state for the C10 witness. -/
def exSt10 : RendererTables :=
  { meshes := [⟨0⟩, ⟨0⟩]
    materials := [⟨0, -1, -1, -1⟩]
    textures := [⟨4, 4, [], true, 1⟩]
    rebuilds := 3 }

/-- Witness for C10 at a concrete out-of-range index. -/
theorem delete_out_of_range_noop_witness :
    delete_mesh exSt10 2 = exSt10 :=
  delete_out_of_range_noop exSt10 2 (by decide)

-- =============================================================================
-- C6: tile grid and tile light buffer sizing
-- =============================================================================

/-- The assignment `tileCountX_ = (swapchainExtent_.width + TILE_SIZE - 1) / TILE_SIZE;`
from `Renderer::create_light_buffers`. -/
def tileCountX (width : Nat) : Nat := (width + TILE_SIZE - 1) / TILE_SIZE

/-- The assignment `tileCountY_ = (swapchainExtent_.height + TILE_SIZE - 1) / TILE_SIZE;` -/
def tileCountY (height : Nat) : Nat := (height + TILE_SIZE - 1) / TILE_SIZE

/-- The size `tileBufSize = numTiles * (1 + MAX_LIGHTS_PER_TILE) * sizeof(uint32_t)`
from `Renderer::create_light_buffers` (sizeof(uint32_t) = 4 bytes). -/
def tileBufSize (width height : Nat) : Nat :=
  (tileCountX width * tileCountY height) * (1 + MAX_LIGHTS_PER_TILE) * 4

/-- Modelled from the spec: the tile-culling compute shader that assigns
pixels to tiles is not among the sources; per the spec a tile is a fixed
16x16 block of screen pixels, so pixel (x, y) lies in tile (a, b) exactly
when that block covers it. -/
def pixelInTile (x y a b : Nat) : Prop :=
  a * TILE_SIZE ≤ x ∧ x < (a + 1) * TILE_SIZE ∧
  b * TILE_SIZE ≤ y ∧ y < (b + 1) * TILE_SIZE

/-- C6: for a positive swapchain extent, the tile counts are the integer
ceilings `(W+15)/16` and `(H+15)/16` (least grids covering the screen),
every pixel lies in exactly one tile, namely `(x/16, y/16)`, which is inside
the grid, and the per-frame tile light buffer holds
`tileCountX * tileCountY * (1 + MAX_LIGHTS_PER_TILE) * 4` bytes. -/
theorem tile_grid_sizing (W H : Nat) (_hW : 0 < W) (_hH : 0 < H) :
    (tileCountX W = (W + 15) / 16 ∧ tileCountY H = (H + 15) / 16) ∧
    (W ≤ TILE_SIZE * tileCountX W ∧
      (∀ n, W ≤ TILE_SIZE * n → tileCountX W ≤ n)) ∧
    (H ≤ TILE_SIZE * tileCountY H ∧
      (∀ n, H ≤ TILE_SIZE * n → tileCountY H ≤ n)) ∧
    (∀ x y, x < W → y < H →
      x / TILE_SIZE < tileCountX W ∧ y / TILE_SIZE < tileCountY H ∧
      pixelInTile x y (x / TILE_SIZE) (y / TILE_SIZE) ∧
      (∀ a b, pixelInTile x y a b →
        a = x / TILE_SIZE ∧ b = y / TILE_SIZE)) ∧
    tileBufSize W H =
      tileCountX W * tileCountY H * (1 + MAX_LIGHTS_PER_TILE) * 4 := by
  have hqW := Nat.div_add_mod (W + 15) 16
  have hrW : (W + 15) % 16 < 16 := Nat.mod_lt _ (by norm_num)
  have hqH := Nat.div_add_mod (H + 15) 16
  have hrH : (H + 15) % 16 < 16 := Nat.mod_lt _ (by norm_num)
  have hcX : tileCountX W = (W + 15) / 16 := by
    show (W + TILE_SIZE - 1) / TILE_SIZE = (W + 15) / 16
    show (W + 16 - 1) / 16 = (W + 15) / 16
    congr 1
  have hcY : tileCountY H = (H + 15) / 16 := by
    show (H + TILE_SIZE - 1) / TILE_SIZE = (H + 15) / 16
    show (H + 16 - 1) / 16 = (H + 15) / 16
    congr 1
  refine ⟨⟨hcX, hcY⟩, ⟨?_, ?_⟩, ⟨?_, ?_⟩, ?_, rfl⟩
  · show 16 * tileCountX W ≥ W
    rw [hcX]; omega
  · intro n hn
    rw [hcX]
    have h16 : 16 * n ≥ W := hn
    omega
  · show 16 * tileCountY H ≥ H
    rw [hcY]; omega
  · intro n hn
    rw [hcY]
    have h16 : 16 * n ≥ H := hn
    omega
  · intro x y hx hy
    have hdx := Nat.div_add_mod x 16
    have hmx : x % 16 < 16 := Nat.mod_lt _ (by norm_num)
    have hdy := Nat.div_add_mod y 16
    have hmy : y % 16 < 16 := Nat.mod_lt _ (by norm_num)
    have hxdiv : x / TILE_SIZE = x / 16 := rfl
    have hydiv : y / TILE_SIZE = y / 16 := rfl
    refine ⟨?_, ?_, ⟨?_, ?_, ?_, ?_⟩, ?_⟩
    · rw [hxdiv, hcX]; omega
    · rw [hydiv, hcY]; omega
    · show (x / 16) * 16 ≤ x
      omega
    · show x < (x / 16 + 1) * 16
      omega
    · show (y / 16) * 16 ≤ y
      omega
    · show y < (y / 16 + 1) * 16
      omega
    · intro a b hab
      obtain ⟨h1, h2, h3, h4⟩ := hab
      have e1 : a * TILE_SIZE = a * 16 := rfl
      have e2 : (a + 1) * TILE_SIZE = (a + 1) * 16 := rfl
      have e3 : b * TILE_SIZE = b * 16 := rfl
      have e4 : (b + 1) * TILE_SIZE = (b + 1) * 16 := rfl
      rw [e1] at h1; rw [e2] at h2; rw [e3] at h3; rw [e4] at h4
      rw [hxdiv, hydiv]
      constructor <;> omega

/-- Witness for C6 at a concrete 800x600 extent. -/
theorem tile_grid_sizing_witness :
    tileCountX 800 = (800 + 15) / 16 ∧ tileCountY 600 = (600 + 15) / 16 :=
  (tile_grid_sizing 800 600 (by decide) (by decide)).1

-- =============================================================================
-- Lights (light.h / light.cpp) and the light part of update_uniforms
-- =============================================================================

/-- glm::vec3 (components carried as IEEE floats; no claim computes on
them). -/
structure Vec3 where
  x : Float
  y : Float
  z : Float

/-- glm::vec4. -/
structure Vec4 where
  x : Float
  y : Float
  z : Float
  w : Float

def Vec3.norm (v : Vec3) : Float :=
  Float.sqrt (v.x * v.x + v.y * v.y + v.z * v.z)

/-- glm::normalize. -/
def Vec3.normalize (v : Vec3) : Vec3 :=
  ⟨v.x / v.norm, v.y / v.norm, v.z / v.norm⟩

/-- glm::vec4(v, w). -/
def vec4of (v : Vec3) (w : Float) : Vec4 := ⟨v.x, v.y, v.z, w⟩

/-- FLT_MAX. -/
def FLT_MAX : Float := 3.4028234663852886e38

structure DirectionalLight where
  direction : Vec3
  color : Vec3
  intensity : Float

structure PointLight where
  position : Vec3
  color : Vec3
  intensity : Float
  radius : Float

structure SpotLight where
  position : Vec3
  direction : Vec3
  color : Vec3
  intensity : Float
  radius : Float
  innerConeAngle : Float
  outerConeAngle : Float

structure AmbientLight where
  color : Vec3
  intensity : Float

/-- The 64-byte GPU-packed light (light.h). -/
structure GPULight where
  positionAndType : Vec4
  directionAndRadius : Vec4
  colorAndIntensity : Vec4
  coneParams : Vec4

/-- LightEnvironment (light.h). -/
structure LightEnvironment where
  ambient : AmbientLight
  directionals : List DirectionalLight
  points : List PointLight
  spots : List SpotLight

/-- Accessor `LightEnvironment::total_light_count` (light.cpp). -/
def total_light_count (env : LightEnvironment) : Nat :=
  env.directionals.length + env.points.length + env.spots.length

/-- One packed directional light (LightType::Directional = 0). -/
def packDirectional (d : DirectionalLight) : GPULight :=
  { positionAndType := ⟨0.0, 0.0, 0.0, 0.0⟩
    directionAndRadius := vec4of d.direction.normalize FLT_MAX
    colorAndIntensity := vec4of d.color d.intensity
    coneParams := ⟨0.0, 0.0, 0.0, 0.0⟩ }

/-- One packed point light (LightType::Point = 1). -/
def packPoint (p : PointLight) : GPULight :=
  { positionAndType := vec4of p.position 1.0
    directionAndRadius := ⟨0.0, 0.0, 0.0, p.radius⟩
    colorAndIntensity := vec4of p.color p.intensity
    coneParams := ⟨0.0, 0.0, 0.0, 0.0⟩ }

/-- One packed spot light (LightType::Spot = 2). -/
def packSpot (s : SpotLight) : GPULight :=
  { positionAndType := vec4of s.position 2.0
    directionAndRadius := vec4of s.direction.normalize s.radius
    colorAndIntensity := vec4of s.color s.intensity
    coneParams := ⟨Float.cos s.innerConeAngle, Float.cos s.outerConeAngle,
      0.0, 0.0⟩ }

/-- Packing routine `LightEnvironment::pack_gpu_lights` (light.cpp): directionals, then
points, then spots, one entry each. -/
def pack_gpu_lights (env : LightEnvironment) : List GPULight :=
  env.directionals.map packDirectional ++ env.points.map packPoint ++
    env.spots.map packSpot

/-- The light-related writes of `Renderer::update_uniforms`: the
`lightCount` stored in the frame UBO and the number of GPULight entries
copied into the light SSBO. -/
structure UniformLightWrite where
  uboLightCount : Nat
  copiedLights : Nat
  deriving Repr, DecidableEq

/-- Light part of `Renderer::update_uniforms` (renderer.cpp, lines 378-414):
`ubo.lightCount = lights.total_light_count();` is written uncapped, then the
packed array is copied with `if (count > MAX_LIGHTS) count = MAX_LIGHTS;`. -/
def update_uniforms_lights (env : LightEnvironment) : UniformLightWrite :=
  let gpuLights := pack_gpu_lights env
  let count := gpuLights.length
  let countCapped := if count > MAX_LIGHTS then MAX_LIGHTS else count
  { uboLightCount := total_light_count env
    copiedLights := countCapped }

/-- A light environment of 1025 point lights (one above MAX_LIGHTS). -/
def exEnvBig : LightEnvironment :=
  { ambient := ⟨⟨1.0, 1.0, 1.0⟩, 0.03⟩
    directionals := []
    points := List.replicate 1025 ⟨⟨0.0, 0.0, 0.0⟩, ⟨1.0, 1.0, 1.0⟩, 1.0, 10.0⟩
    spots := [] }

/-- Counterexample to C7 as stated: with 1025 lights, the light count that
`update_uniforms` records in the frame uniform block is 1025, which exceeds
MAX_LIGHTS = 1024 — only the SSBO copy is capped, not `ubo.lightCount`. -/
theorem light_cap_counterexample :
    MAX_LIGHTS < (update_uniforms_lights exEnvBig).uboLightCount := by
  have h1 : exEnvBig.directionals.length = 0 := rfl
  have h2 : exEnvBig.points.length = 1025 := by
    show (List.replicate 1025
      (⟨⟨0.0, 0.0, 0.0⟩, ⟨1.0, 1.0, 1.0⟩, 1.0, 10.0⟩ : PointLight)).length =
      1025
    exact List.length_replicate _ _
  have h3 : exEnvBig.spots.length = 0 := rfl
  show MAX_LIGHTS < exEnvBig.directionals.length + exEnvBig.points.length +
    exEnvBig.spots.length
  rw [h1, h2, h3]
  norm_num [MAX_LIGHTS]

/-- C7 amended: at most MAX_LIGHTS packed GPULight entries are copied into
the light SSBO (exactly `min total MAX_LIGHTS`), but the light count
recorded in the frame uniform block is the uncapped total
`directionals.size() + points.size() + spots.size()`. -/
theorem light_cap_amended (env : LightEnvironment) :
    (update_uniforms_lights env).copiedLights =
      min (total_light_count env) MAX_LIGHTS ∧
    (update_uniforms_lights env).copiedLights ≤ MAX_LIGHTS ∧
    (update_uniforms_lights env).uboLightCount = total_light_count env := by
  have hlen : (pack_gpu_lights env).length = total_light_count env := by
    simp [pack_gpu_lights, total_light_count]
    omega
  have hcopied : (update_uniforms_lights env).copiedLights =
      if (pack_gpu_lights env).length > MAX_LIGHTS then MAX_LIGHTS
      else (pack_gpu_lights env).length := rfl
  refine ⟨?_, ?_, rfl⟩
  · rw [hcopied, hlen]
    by_cases h : total_light_count env > MAX_LIGHTS
    · rw [if_pos h]; omega
    · rw [if_neg h]; omega
  · rw [hcopied, hlen]
    by_cases h : total_light_count env > MAX_LIGHTS
    · rw [if_pos h]
    · rw [if_neg h]; omega

-- =============================================================================
-- Frame scheduling (begin_frame / end_frame / recreate_swapchain)
-- =============================================================================

/-- The Vulkan result codes distinguished by begin_frame / end_frame. -/
inductive VkResult where
  | success
  | suboptimalKHR
  | errorOutOfDateKHR
  | otherError
  deriving Repr, DecidableEq

/-- The resolution-dependent and per-frame state read and written by
`begin_frame`, `end_frame` and `recreate_swapchain`.  GPU objects that are
destroyed and recreated (swapchain, depth image, tile light SSBOs, light
descriptor sets) are modelled by generation counters bumped on each
recreation; the tile grid fields mirror `tileCountX_` / `tileCountY_` and
the tile light buffer byte size. -/
structure FrameState where
  width : Nat
  height : Nat
  currentFrame : Nat
  framebufferResized : Bool
  tilesX : Nat
  tilesY : Nat
  tileBufferBytes : Nat
  swapchainGen : Nat
  depthGen : Nat
  lightBufGen : Nat
  lightDescGen : Nat
  deriving Repr, DecidableEq

/-- The routine `Renderer::recreate_swapchain` (renderer.cpp, lines 786-820): after the
device idles, it destroys and recreates the swapchain, the depth resources,
the framebuffers, the tile light SSBOs (`cleanup_light_buffers` +
`create_light_buffers`, whose sizes come from the new extent) and the light
descriptor pool/sets.  The polled framebuffer size is an external input. -/
def recreate_swapchain (st : FrameState) (newW newH : Nat) : FrameState :=
  { width := newW
    height := newH
    currentFrame := st.currentFrame
    framebufferResized := st.framebufferResized
    tilesX := tileCountX newW
    tilesY := tileCountY newH
    tileBufferBytes := tileBufSize newW newH
    swapchainGen := st.swapchainGen + 1
    depthGen := st.depthGen + 1
    lightBufGen := st.lightBufGen + 1
    lightDescGen := st.lightDescGen + 1 }

/-- The per-frame context returned by `begin_frame` (the command buffer
handle is a GPU object and is omitted). -/
structure FrameContext where
  imageIndex : Nat
  deriving Repr, DecidableEq

/-- Acquisition control flow of `Renderer::begin_frame` (renderer.cpp,
lines 244-261): an out-of-date surface triggers `recreate_swapchain` and
returns no frame (`std::nullopt`); any other failure besides suboptimal
throws; success and suboptimal proceed into the frame.  The acquire result,
image index and polled window size are external inputs. -/
def begin_frame (st : FrameState) (acquire : VkResult) (imageIndex : Nat)
    (newW newH : Nat) : Except String (Option FrameContext × FrameState) :=
  match acquire with
  | .errorOutOfDateKHR =>
      Except.ok (none, recreate_swapchain st newW newH)
  | .otherError => Except.error "Failed to acquire swapchain image"
  | _ => Except.ok (some ⟨imageIndex⟩, st)

/-- Presentation control flow of `Renderer::end_frame` (renderer.cpp, lines
488-530): out-of-date / suboptimal presents and a pending resize flag clear
the flag and recreate the swapchain; any other present failure throws;
in every completing path `currentFrame_ = (currentFrame_ + 1) %
MAX_FRAMES_IN_FLIGHT` executes last. -/
def end_frame (st : FrameState) (present : VkResult) (newW newH : Nat) :
    Except String FrameState :=
  if present = VkResult.errorOutOfDateKHR ∨ present = VkResult.suboptimalKHR ∨
      st.framebufferResized = true then
    let st1 := recreate_swapchain
      { st with framebufferResized := false } newW newH
    Except.ok
      { st1 with currentFrame := (st1.currentFrame + 1) % MAX_FRAMES_IN_FLIGHT }
  else if present ≠ VkResult.success then Except.error "Failed to present"
  else
    Except.ok
      { st with currentFrame := (st.currentFrame + 1) % MAX_FRAMES_IN_FLIGHT }

-- =============================================================================
-- C8: stale surface skips the frame and recreates resolution resources
-- =============================================================================

/-- C8: when acquisition reports an out-of-date surface, `begin_frame`
returns the no-frame result (not an error) and recreates the swapchain,
which also recreates the depth buffer, the tile light buffers sized from the
new extent, and the tile-indexed light descriptor bindings. -/
theorem stale_surface_frame_skip (st : FrameState)
    (imageIndex newW newH : Nat) :
    begin_frame st VkResult.errorOutOfDateKHR imageIndex newW newH =
      Except.ok (none, recreate_swapchain st newW newH) ∧
    (recreate_swapchain st newW newH).swapchainGen = st.swapchainGen + 1 ∧
    (recreate_swapchain st newW newH).depthGen = st.depthGen + 1 ∧
    (recreate_swapchain st newW newH).lightBufGen = st.lightBufGen + 1 ∧
    (recreate_swapchain st newW newH).lightDescGen = st.lightDescGen + 1 ∧
    (recreate_swapchain st newW newH).tilesX =
      (newW + TILE_SIZE - 1) / TILE_SIZE ∧
    (recreate_swapchain st newW newH).tilesY =
      (newH + TILE_SIZE - 1) / TILE_SIZE ∧
    (recreate_swapchain st newW newH).tileBufferBytes =
      ((newW + TILE_SIZE - 1) / TILE_SIZE) *
        ((newH + TILE_SIZE - 1) / TILE_SIZE) * (1 + MAX_LIGHTS_PER_TILE) *
        4 :=
  ⟨rfl, rfl, rfl, rfl, rfl, rfl, rfl, rfl⟩

-- =============================================================================
-- C9: the frame index always advances by one modulo N on completion
-- =============================================================================

/-- C9: every completing call to `end_frame` — including the paths where
presentation reports a stale or suboptimal surface or a resize notification
is pending, which additionally recreate the swapchain — leaves
`currentFrame` advanced by exactly one modulo MAX_FRAMES_IN_FLIGHT; and all
of those paths, as well as a clean present, do complete. -/
theorem frame_index_advance (st : FrameState) (present : VkResult)
    (newW newH : Nat) :
    (∀ st2, end_frame st present newW newH = Except.ok st2 →
      st2.currentFrame = (st.currentFrame + 1) % MAX_FRAMES_IN_FLIGHT) ∧
    (present = VkResult.errorOutOfDateKHR ∨
        present = VkResult.suboptimalKHR ∨
        st.framebufferResized = true ∨ present = VkResult.success →
      ∃ st2, end_frame st present newW newH = Except.ok st2) := by
  constructor
  · intro st2 h
    unfold end_frame at h
    by_cases h1 : present = VkResult.errorOutOfDateKHR ∨
        present = VkResult.suboptimalKHR ∨ st.framebufferResized = true
    · rw [if_pos h1] at h
      have h2 := Except.ok.inj h
      rw [← h2]
      rfl
    · rw [if_neg h1] at h
      by_cases h2 : present = VkResult.success
      · rw [if_neg (by simp [h2])] at h
        have h3 := Except.ok.inj h
        rw [← h3]
      · rw [if_pos h2] at h
        cases h
  · intro hcase
    by_cases h1 : present = VkResult.errorOutOfDateKHR ∨
        present = VkResult.suboptimalKHR ∨ st.framebufferResized = true
    · exact ⟨_, by unfold end_frame; rw [if_pos h1]⟩
    · have hsucc : present = VkResult.success := by
        rcases hcase with h | h | h | h
        · exact absurd (Or.inl h) h1
        · exact absurd (Or.inr (Or.inl h)) h1
        · exact absurd (Or.inr (Or.inr h)) h1
        · exact h
      exact ⟨_, by
        unfold end_frame
        rw [if_neg h1, if_neg (by simp [hsucc])]⟩

/-- Example frame state for the C9 witness. -/
def exFrameSt : FrameState :=
  { width := 800
    height := 600
    currentFrame := 1
    framebufferResized := false
    tilesX := 50
    tilesY := 38
    tileBufferBytes := 50 * 38 * 257 * 4
    swapchainGen := 0
    depthGen := 0
    lightBufGen := 0
    lightDescGen := 0 }

/-- Witness for C9: a clean present at a concrete state completes (and by
the theorem advances the frame index). -/
theorem frame_index_advance_witness :
    ∃ st2, end_frame exFrameSt VkResult.success 800 600 = Except.ok st2 :=
  (frame_index_advance exFrameSt VkResult.success 800 600).2
    (Or.inr (Or.inr (Or.inr rfl)))

end VulkanWork
